import Mathlib

/-
  Verification development for the ScanDir_go filesystem indexer.

  The Go program scans filesystem trees into a SQLite store (tables
  fs_folders, fs_files, duplicate_groups, duplicate_runs), hashes
  same-sized files with MD5 in a second phase, and materializes
  duplicate groups with a standalone `checkdup` tool.

  The definitions below are a shallow embedding of the relevant Go
  functions and SQL statements:
    - fs_files / fs_folders / duplicate_groups rows as structures;
    - the `ON CONFLICT ... DO UPDATE` upserts of scanner.go (flushFiles,
      folder insert) and checkdup.go (commitDupBatch) as list transformers;
    - the Phase-2 candidate query of runHashingPhase[Optimized];
    - calculateHash (crypto/md5 + encoding/hex) with a full MD5 model;
    - RetryableOperation.Execute and the batch-dropping writer loop;
    - scanRoot's early-exit and iterative DFS;
    - loadConfig's [paths] parsing (strings.Cut at the first colon).
-/

namespace ScanDir

/-- A row of the `fs_files` table (common_db.go, initDDL): id, folder_id,
path, dir_path, filename, fileExt, size, st_mtime, hash_value,
is_duplicate, loaithumuc (tag), thumuc (top_folder). -/
structure FileRec where
  id : Int
  folderId : Int
  path : String
  dirPath : String
  filename : String
  fileExt : String
  size : Int
  mtime : Int
  hashValue : Option String
  isDuplicate : Bool
  loaithumuc : String
  thumuc : String
deriving Repr, DecidableEq

/-- The `FileRow` struct of common_types.go: the values the scanner sends
to the writer for one file (no id, no hash, no is_duplicate). -/
structure FileRow where
  folderID : Int
  path : String
  dirPath : String
  filename : String
  fileExt : String
  size : Int
  mtime : Int
  loaithumuc : String
  thumuc : String
deriving Repr, DecidableEq

/-- A row of the `fs_folders` table. -/
structure FolderRec where
  id : Int
  parentId : Option Int
  path : String
  name : String
  mtime : Int
  loaithumuc : String
deriving Repr, DecidableEq

/-- The `DirInsertReq` struct of common_types.go (without the reply
channel, which the embedding models as the returned id). -/
structure DirReq where
  parentID : Int
  entryPath : String
  entryName : String
  mtime : Int
  loaithumuc : String
deriving Repr, DecidableEq

/-- A row of the `duplicate_groups` table. -/
structure GroupRec where
  hashValue : String
  fileCount : Int
  totalSize : Int
  firstSeen : Int
  lastUpdated : Int
deriving Repr, DecidableEq

/-- The `dupGroupRow` struct of checkdup.go: one row of the group query
(hash_value, COUNT(*), SUM(size), MIN(st_mtime)). -/
structure DupGroupRow where
  hashValue : String
  fileCount : Int
  totalSize : Int
  firstSeen : Int
deriving Repr, DecidableEq

/-! ## File upsert (scanner.go flushFiles / part_011 dbWriterOptimized)

SQL: `INSERT INTO fs_files (...) VALUES (...) ON CONFLICT(path) DO UPDATE
SET folder_id=excluded.folder_id, size=excluded.size,
st_mtime=excluded.st_mtime`. `path` has a unique index. -/

/-- One execution of the prepared file upsert against the table contents.
On a fresh insert the row gets the next rowid `newId`, a NULL hash_value
and the default is_duplicate = 0; on path conflict only folder_id, size
and st_mtime are set from the excluded row. -/
def flushFilesUpsertOne (files : List FileRec) (r : FileRow) (newId : Int) : List FileRec :=
  if files.any (fun f => f.path == r.path) then
    files.map (fun f =>
      if f.path == r.path then
        { f with folderId := r.folderID, size := r.size, mtime := r.mtime }
      else f)
  else
    files ++ [{ id := newId, folderId := r.folderID, path := r.path, dirPath := r.dirPath,
                filename := r.filename, fileExt := r.fileExt, size := r.size, mtime := r.mtime,
                hashValue := none, isDuplicate := false,
                loaithumuc := r.loaithumuc, thumuc := r.thumuc }]

/-- Upsert a whole batch (the loop body of flushFiles), threading the
next fresh rowid: a conflicting insert consumes no rowid. -/
def upsertFileBatch (files : List FileRec) (rows : List FileRow) (nid : Int) :
    List FileRec × Int :=
  rows.foldl (fun (p : List FileRec × Int) r =>
    if p.1.any (fun f => f.path == r.path) then (flushFilesUpsertOne p.1 r p.2, p.2)
    else (flushFilesUpsertOne p.1 r p.2, p.2 + 1)) (files, nid)

/-! ## Folder upsert and the writer's id reply (scanner.go dbWriter /
part_011 dbWriterOptimized)

SQL: `INSERT INTO fs_folders (parent_id, path, name, st_mtime, loaithumuc)
VALUES (...) ON CONFLICT(path) DO UPDATE SET parent_id=excluded.parent_id,
st_mtime=excluded.st_mtime`, followed in Go by
`id, _ := res.LastInsertId(); if id == 0 { SELECT id FROM fs_folders WHERE
path = ? }; req.Resp <- id`.

SQLite's `last_insert_rowid()` is per-connection state: it is set by every
successful INSERT and is NOT changed when the upsert takes the DO UPDATE
branch; it is 0 only while no INSERT has succeeded on the connection yet.
The model carries that state explicitly in `ConnSt.lastInsertRowid`. -/

/-- Connection + table state for the Phase-1 writer (single connection). -/
structure ConnSt where
  folders : List FolderRec
  nextId : Int
  lastInsertRowid : Int
deriving Repr, DecidableEq

/-- Fresh connection over an empty fs_folders table (AUTOINCREMENT starts
at rowid 1; last_insert_rowid() is 0 before any successful insert). -/
def ConnSt.init : ConnSt := { folders := [], nextId := 1, lastInsertRowid := 0 }

/-- The `SELECT id FROM fs_folders WHERE path = ?` fallback; the Go code
ignores the Scan error, so a missing row leaves id at 0. -/
def lookupFolderIdByPath (folders : List FolderRec) (p : String) : Int :=
  match folders.find? (fun f => f.path == p) with
  | some f => f.id
  | none => 0

/-- One execution of the folder upsert statement. `req.ParentID > 0` is
the Go guard turning 0 into NULL. The DO UPDATE branch sets only
parent_id and st_mtime and leaves `lastInsertRowid` untouched. -/
def insertFolderUpsert (st : ConnSt) (req : DirReq) : ConnSt :=
  let parent : Option Int := if 0 < req.parentID then some req.parentID else none
  if st.folders.any (fun f => f.path == req.entryPath) then
    { st with folders := st.folders.map (fun f =>
        if f.path == req.entryPath then { f with parentId := parent, mtime := req.mtime } else f) }
  else
    { folders := st.folders ++ [{ id := st.nextId, parentId := parent, path := req.entryPath,
                                  name := req.entryName, mtime := req.mtime,
                                  loaithumuc := req.loaithumuc }],
      nextId := st.nextId + 1,
      lastInsertRowid := st.nextId }

/-- The writer's handling of one InsertDir message: run the upsert, read
LastInsertId, fall back to the path lookup only when it is 0, and reply. -/
def dbWriterInsertDir (st : ConnSt) (req : DirReq) : ConnSt × Int :=
  let st' := insertFolderUpsert st req
  let id := st'.lastInsertRowid
  let id := if id == 0 then lookupFolderIdByPath st'.folders req.entryPath else id
  (st', id)

/-- Process a sequence of folder-insertion requests, collecting the ids
sent back on the reply channels. -/
def processDirRequests (st : ConnSt) : List DirReq → ConnSt × List Int
  | [] => (st, [])
  | req :: rest =>
    let (st', id) := dbWriterInsertDir st req
    let (st'', ids) := processDirRequests st' rest
    (st'', id :: ids)

/-! ## Phase-2 candidate selection (scanner.go runHashingPhase /
part_011 runHashingPhaseOptimized)

Outer query: `SELECT size, COUNT(*) as count FROM fs_files WHERE size > 0
AND hash_value IS NULL GROUP BY size HAVING count > 1`; then for each
returned size the files are fetched (by the GROUP_CONCAT ids in
scanner.go, by `... AND size = ?` in part_011 — the same row set). -/

/-- The WHERE clause of the candidate queries: size > 0 AND hash_value IS
NULL. -/
def isSuspectRow (f : FileRec) : Bool :=
  decide (0 < f.size) && f.hashValue.isNone

/-- The rows of one size group: files matching the WHERE clause with the
given size. -/
def sameSizeSuspects (files : List FileRec) (s : Int) : List FileRec :=
  files.filter (fun f => isSuspectRow f && f.size == s)

/-- The sizes returned by the GROUP BY ... HAVING count > 1 query: the
distinct sizes among suspect rows whose group has more than one row. -/
def suspectSizes (files : List FileRec) : List Int :=
  (((files.filter isSuspectRow).map (fun f => f.size)).dedup).filter
    (fun s => decide (1 < (sameSizeSuspects files s).length))

/-- All files submitted to the hash worker pool: for each suspect size,
the rows of that group. -/
def runHashingPhaseCandidates (files : List FileRec) : List FileRec :=
  (suspectSizes files).flatMap (sameSizeSuspects files)

/-! ## MD5 (crypto/md5) and lowercase hex (encoding/hex)

calculateHash streams the file through md5 and hex-encodes the 16-byte
sum. MD5 is modelled in full (RFC 1321): 32-bit words are Nat values
taken mod 2^32. -/

/-- Addition mod 2^32. -/
def add32 (a b : Nat) : Nat := (a + b) % 4294967296

/-- Bitwise complement on 32-bit words. -/
def not32 (a : Nat) : Nat := a ^^^ 4294967295

/-- Left-rotation of a 32-bit word by s bits (0 < s < 32). -/
def rotl32 (x s : Nat) : Nat := ((x <<< s) % 4294967296) ||| (x >>> (32 - s))

/-- The 64 per-round shift amounts of MD5. -/
def md5S : List Nat :=
  [7, 12, 17, 22, 7, 12, 17, 22, 7, 12, 17, 22, 7, 12, 17, 22,
   5, 9, 14, 20, 5, 9, 14, 20, 5, 9, 14, 20, 5, 9, 14, 20,
   4, 11, 16, 23, 4, 11, 16, 23, 4, 11, 16, 23, 4, 11, 16, 23,
   6, 10, 15, 21, 6, 10, 15, 21, 6, 10, 15, 21, 6, 10, 15, 21]

/-- The 64 sine-derived constants of MD5. -/
def md5K : List Nat :=
  [3614090360, 3905402710, 606105819, 3250441966,
   4118548399, 1200080426, 2821735955, 4249261313,
   1770035416, 2336552879, 4294925233, 2304563134,
   1804603682, 4254626195, 2792965006, 1236535329,
   4129170786, 3225465664, 643717713, 3921069994,
   3593408605, 38016083, 3634488961, 3889429448,
   568446438, 3275163606, 4107603335, 1163531501,
   2850285829, 4243563512, 1735328473, 2368359562,
   4294588738, 2272392833, 1839030562, 4259657740,
   2763975236, 1272893353, 4139469664, 3200236656,
   681279174, 3936430074, 3572445317, 76029189,
   3654602809, 3873151461, 530742520, 3299628645,
   4096336452, 1126891415, 2878612391, 4237533241,
   1700485571, 2399980690, 4293915773, 2240044497,
   1873313359, 4264355552, 2734768916, 1309151649,
   4149444226, 3174756917, 718787259, 3951481745]

/-- The round function and message index for round i. -/
def md5FG (i b c d : Nat) : Nat × Nat :=
  if i < 16 then ((b &&& c) ||| (not32 b &&& d), i)
  else if i < 32 then ((d &&& b) ||| (not32 d &&& c), (5 * i + 1) % 16)
  else if i < 48 then (b ^^^ c ^^^ d, (3 * i + 5) % 16)
  else (c ^^^ (b ||| not32 d), (7 * i) % 16)

/-- One of the 64 MD5 rounds over the 16 message words m. -/
def md5Round (m : List Nat) (st : Nat × Nat × Nat × Nat) (i : Nat) : Nat × Nat × Nat × Nat :=
  let (a, b, c, d) := st
  let (f, g) := md5FG i b c d
  let f := add32 (add32 (add32 f a) (md5K.getD i 0)) (m.getD g 0)
  (d, add32 b (rotl32 f (md5S.getD i 0)), b, c)

/-- A 32-bit word from 4 little-endian bytes. -/
def leWord : List Nat → Nat
  | [b0, b1, b2, b3] => b0 + 256 * (b1 + 256 * (b2 + 256 * b3))
  | _ => 0

/-- The 16 little-endian message words of one 64-byte block. -/
def blockWords (block : List Nat) : List Nat :=
  (List.range 16).map (fun j => leWord ((block.drop (4 * j)).take 4))

/-- Process one 64-byte block. -/
def md5Block (st : Nat × Nat × Nat × Nat) (block : List Nat) : Nat × Nat × Nat × Nat :=
  let m := blockWords block
  let (a, b, c, d) := (List.range 64).foldl (md5Round m) st
  let (a0, b0, c0, d0) := st
  (add32 a0 a, add32 b0 b, add32 c0 c, add32 d0 d)

/-- The n-th little-endian byte of a word. -/
def leByte (n i : Nat) : Nat := (n >>> (8 * i)) % 256

/-- A word as 4 little-endian bytes. -/
def le4 (n : Nat) : List Nat := (List.range 4).map (leByte n)

/-- The 8-byte little-endian bit-length trailer. -/
def le8 (n : Nat) : List Nat := (List.range 8).map (leByte n)

/-- MD5 padding: a 0x80 byte, zeros to 56 mod 64, then the bit length. -/
def md5Pad (msg : List Nat) : List Nat :=
  let zeros := (64 + 56 - (msg.length + 1) % 64) % 64
  msg ++ [128] ++ List.replicate zeros 0 ++ le8 ((8 * msg.length) % 18446744073709551616)

/-- Fold the block function over the padded message, 64 bytes at a time
(fuel-driven; the fuel is always sufficient for a padded message). -/
def md5Blocks : Nat → (Nat × Nat × Nat × Nat) → List Nat → Nat × Nat × Nat × Nat
  | 0, st, _ => st
  | _ + 1, st, [] => st
  | fuel + 1, st, msg => md5Blocks fuel (md5Block st (msg.take 64)) (msg.drop 64)

/-- The final (A, B, C, D) state over the padded message. -/
def md5Final (msg : List Nat) : Nat × Nat × Nat × Nat :=
  md5Blocks (md5Pad msg).length (1732584193, 4023233417, 2562383102, 271733878) (md5Pad msg)

/-- The MD5 digest of a byte sequence: 16 bytes, little-endian per word. -/
def md5Sum (msg : List Nat) : List Nat :=
  le4 (md5Final msg).1 ++ le4 (md5Final msg).2.1 ++
    le4 (md5Final msg).2.2.1 ++ le4 (md5Final msg).2.2.2

/-- Go's encoding/hex digit table "0123456789abcdef": digit n as a char. -/
def hexDigit (n : Nat) : Char :=
  if n < 10 then Char.ofNat (48 + n) else Char.ofNat (87 + n)

/-- hex.EncodeToString: two lowercase hex digits per byte. -/
def hexEncode (bytes : List Nat) : String :=
  ⟨bytes.flatMap (fun b => [hexDigit (b / 16 % 16), hexDigit (b % 16)])⟩

/-- hex.EncodeToString(md5.Sum(content)). -/
def md5Hex (msg : List Nat) : String := hexEncode (md5Sum msg)

/-! ## calculateHash and the Phase-2 result consumer (scanner.go) -/

/-- The on-disk state seen by Phase 2: for each path, the byte contents
of the file there, if it can be opened. -/
def Disk := String → Option (List Nat)

/-- calculateHash: open the file (error result if it cannot be opened),
return a NULL digest for size 0, else the lowercase-hex MD5 of the
contents. `Except.error` stands for a non-nil Go error. -/
def calculateHash (disk : Disk) (path : String) : Except Unit (Option String) :=
  match disk path with
  | none => .error ()
  | some content =>
    if content.length == 0 then .ok none
    else .ok (some (md5Hex content))

/-- The digest that the result consumer writes for one job, if any: the
consumer executes `UPDATE fs_files SET hash_value = ? WHERE id = ?` only
when res.Err == nil and res.Hash.Valid. -/
def phase2Results (disk : Disk) (files : List FileRec) : List (Int × Option String) :=
  (runHashingPhaseCandidates files).map (fun j =>
    match calculateHash disk j.path with
    | .ok (some h) => (j.id, some h)
    | _ => (j.id, none))

/-- Apply one consumer result to one row. -/
def rowUpdate (r : Int × Option String) (f : FileRec) : FileRec :=
  match r.2 with
  | some h => if f.id == r.1 then { f with hashValue := some h } else f
  | none => f

/-- Apply all consumer results to the table (each a per-id UPDATE). -/
def applyHashResults (files : List FileRec) (results : List (Int × Option String)) : List FileRec :=
  results.foldl (fun fs r => fs.map (rowUpdate r)) files

/-- The net effect of Phase 2 on fs_files. -/
def runHashingPhaseModel (disk : Disk) (files : List FileRec) : List FileRec :=
  applyHashResults files (phase2Results disk files)

/-! ## The duplicate materializer (part_003, checkdup.go)

The relevant store state is fs_files plus duplicate_groups (the
duplicate_runs progress rows touch neither table and are omitted). -/

/-- The store as seen by checkdup. -/
structure Store where
  files : List FileRec
  dupGroups : List GroupRec
deriving Repr, DecidableEq

/-- Byte-wise (BINARY collation) string comparison, as SQLite compares
TEXT values: lexicographic on the code units. -/
def strLtB : List Char → List Char → Bool
  | [], [] => false
  | [], _ :: _ => true
  | _ :: _, [] => false
  | a :: as, b :: bs =>
    if a.val < b.val then true
    else if b.val < a.val then false
    else strLtB as bs

/-- Non-strict version of `strLtB`, used to model ORDER BY hash_value. -/
def strLeB (a b : String) : Bool := !(strLtB b.data a.data)

/-- resetDuplicates: `UPDATE fs_files SET is_duplicate = 0 WHERE
is_duplicate = 1` and `DELETE FROM duplicate_groups`, one transaction. -/
def resetDuplicates (s : Store) : Store :=
  { files := s.files.map (fun f => if f.isDuplicate then { f with isDuplicate := false } else f),
    dupGroups := [] }

/-- The columns the group query reads from an eligible row
(`hash_value IS NOT NULL AND hash_value != '' AND hash_value > ?`):
hash_value, size, st_mtime. -/
def eligibleHashRows (files : List FileRec) (fromHash : String) : List (String × Int × Int) :=
  files.filterMap (fun f =>
    match f.hashValue with
    | some h => if h != "" && strLtB fromHash.data h.data then some (h, f.size, f.mtime) else none
    | none => none)

/-- The rows of one hash group. -/
def hashGroupRows (rows : List (String × Int × Int)) (h : String) : List (String × Int × Int) :=
  rows.filter (fun r => r.1 == h)

/-- MIN over a non-empty column (0 is never reached: HAVING COUNT(*) > 1). -/
def sqlMinInt : List Int → Int
  | [] => 0
  | x :: xs => xs.foldl min x

/-- The checkdup group query: `SELECT hash_value, COUNT(*), SUM(size),
MIN(st_mtime) FROM fs_files WHERE hash_value IS NOT NULL AND hash_value
!= '' AND hash_value > ? GROUP BY hash_value HAVING COUNT(*) > 1 ORDER BY
hash_value`. st_mtime is NOT NULL and written by the scanner through the
driver, so first_seen is always the parsed MIN(st_mtime); the
parse-failure fallback of parseSQLiteTime (first_seen := now) does not
arise for timestamps modelled as integers. -/
def dupGroupsQuery (files : List FileRec) (fromHash : String) : List DupGroupRow :=
  let rows := eligibleHashRows files fromHash
  let keys := (((rows.map (fun r => r.1)).dedup).mergeSort strLeB).filter
    (fun h => decide (1 < (hashGroupRows rows h).length))
  keys.map (fun h =>
    { hashValue := h,
      fileCount := ((hashGroupRows rows h).length : Int),
      totalSize := ((hashGroupRows rows h).map (fun r => r.2.1)).sum,
      firstSeen := sqlMinInt ((hashGroupRows rows h).map (fun r => r.2.2)) })

/-- The duplicate_groups upsert of commitDupBatch: `INSERT ... ON
CONFLICT(hash_value) DO UPDATE SET file_count = excluded.file_count,
total_size = excluded.total_size, first_seen = excluded.first_seen,
last_updated = excluded.last_updated`. The excluded row carries the
batch row's values and `now` as last_updated. -/
def upsertDupGroup (groups : List GroupRec) (g : DupGroupRow) (now : Int) : List GroupRec :=
  if groups.any (fun x => x.hashValue == g.hashValue) then
    groups.map (fun x =>
      if x.hashValue == g.hashValue then
        { x with fileCount := g.fileCount, totalSize := g.totalSize,
                 firstSeen := g.firstSeen, lastUpdated := now }
      else x)
  else
    groups ++ [{ hashValue := g.hashValue, fileCount := g.fileCount, totalSize := g.totalSize,
                 firstSeen := g.firstSeen, lastUpdated := now }]

/-- The duplicate_groups row a batch row becomes when freshly inserted
(last_updated is the commit's `now`). -/
def dupRowToGroup (now : Int) (g : DupGroupRow) : GroupRec :=
  { hashValue := g.hashValue, fileCount := g.fileCount, totalSize := g.totalSize,
    firstSeen := g.firstSeen, lastUpdated := now }

/-- The marking statement of commitDupBatch: `UPDATE fs_files SET
is_duplicate = 1 WHERE hash_value IN (batch hashes)`. -/
def markDuplicates (files : List FileRec) (hashes : List String) : List FileRec :=
  files.map (fun f =>
    match f.hashValue with
    | some h => if hashes.contains h then { f with isDuplicate := true } else f
    | none => f)

/-- commitDupBatch: one transaction upserting the batch's group rows and
marking their member files (the duplicate_runs progress update is not
part of the modelled state). -/
def commitDupBatch (s : Store) (batch : List DupGroupRow) (now : Int) : Store :=
  { files := markDuplicates s.files (batch.map (fun g => g.hashValue)),
    dupGroups := batch.foldl (fun gs g => upsertDupGroup gs g now) s.dupGroups }

/-- Split the streamed group rows into consecutive batches of size `n`
(the flush at `len(batch) >= batchSize` plus the final partial flush);
the trailing batch may be shorter. -/
def chunked (n : Nat) : List α → List (List α)
  | [] => []
  | a :: l =>
    if n = 0 then [a :: l]
    else (a :: l).take n :: chunked n ((a :: l).drop n)
termination_by l => l.length
decreasing_by
  simp only [List.length_drop, List.length_cons]
  omega

/-- runCheckDup: optionally reset, run the group query, and commit the
groups batch by batch. -/
def runCheckDup (s : Store) (reset : Bool) (fromHash : String) (batchSize : Nat) (now : Int) :
    Store :=
  let s1 := if reset then resetDuplicates s else s
  let gs := dupGroupsQuery s1.files fromHash
  (chunked batchSize gs).foldl (fun st b => commitDupBatch st b now) s1

/-! ## RetryableOperation (part_011) and the batch-dropping writer loop

`Execute` runs fn for attempt = 0..maxRetries (maxRetries = 3, so up to 4
calls); after each failed attempt except the last it sleeps
min(baseDelay * 2^attempt, maxDelay) with baseDelay = 100 ms and
maxDelay = 5 s. The model returns (succeeded, number of fn calls, the
sleep delays in ms). -/

/-- The backoff delay before retry number attempt+1. -/
def retryDelay (base cap attempt : Nat) : Nat := min (base * 2 ^ attempt) cap

/-- The attempt loop of RetryableOperation.Execute. `fails n` tells
whether the n-th call of fn returns an error; `rem` is the number of
loop iterations left (maxRetries + 1 - attempt at entry). -/
def executeLoop (fails : Nat → Bool) (maxRetries base cap : Nat) :
    Nat → Nat → Bool × Nat × List Nat
  | attempt, 0 => (false, attempt, [])
  | attempt, rem + 1 =>
    if fails attempt then
      if attempt < maxRetries then
        let r := executeLoop fails maxRetries base cap (attempt + 1) rem
        (r.1, r.2.1, retryDelay base cap attempt :: r.2.2)
      else (false, attempt + 1, [])
    else (true, attempt + 1, [])

/-- NewRetryableOperation().Execute(fn): maxRetries 3, base 100 ms,
cap 5000 ms. -/
def retryExecute (fails : Nat → Bool) : Bool × Nat × List Nat :=
  executeLoop fails 3 100 5000 0 4

/-- A message on the writer channel (Shutdown closes the loop; the
InsertDir case is handled by `dbWriterInsertDir` above). -/
inductive WMsg where
  | insertFiles (rows : List FileRow)
  | shutdown
deriving Repr

/-- Writer-loop state: committed fs_files rows, the in-memory buffer,
the next fresh rowid, and how many flushes were attempted (indexing the
flush-outcome oracle). -/
structure WriterSt where
  dbFiles : List FileRec
  fileBatch : List FileRow
  nextId : Int
  flushes : Nat
deriving Repr

/-- flushFiles wrapped in retryOp.Execute: `flushOk k` is whether the
k-th flush's commit eventually succeeds within its retry budget. On
failure the transaction is rolled back (table and rowids unchanged); in
both cases the caller clears the buffer, so the batch is dropped on
failure and the loop continues. An empty buffer is a no-op. -/
def flushBatch (flushOk : Nat → Bool) (st : WriterSt) : WriterSt :=
  if st.fileBatch.isEmpty then st
  else if flushOk st.flushes then
    let p := upsertFileBatch st.dbFiles st.fileBatch st.nextId
    { dbFiles := p.1, fileBatch := [], nextId := p.2, flushes := st.flushes + 1 }
  else
    { st with fileBatch := [], flushes := st.flushes + 1 }

/-- The buffer-and-flush step for one InsertFiles message (flush when the
buffer reaches maxBatch rows). -/
def writerInsertFiles (flushOk : Nat → Bool) (maxBatch : Nat) (st : WriterSt)
    (rows : List FileRow) : WriterSt :=
  let st := { st with fileBatch := st.fileBatch ++ rows }
  if maxBatch ≤ st.fileBatch.length then flushBatch flushOk st else st

/-- The writer message loop: flush-and-stop on Shutdown, flush the
remainder when the channel is closed (end of the message list). -/
def runWriter (flushOk : Nat → Bool) (maxBatch : Nat) : List WMsg → WriterSt → WriterSt
  | [], st => flushBatch flushOk st
  | .shutdown :: _, st => flushBatch flushOk st
  | .insertFiles rows :: rest, st =>
    runWriter flushOk maxBatch rest (writerInsertFiles flushOk maxBatch st rows)

/-! ## scanRoot (scanner.go / part_011): early exit and iterative DFS -/

/-- A filesystem node as seen through Lstat/ReadDir: a directory with its
entries in enumeration order, a regular file, or any other entry
(symlink, device, socket). -/
inductive FSNode where
  | dir (mtime : Int) (ents : List (String × FSNode))
  | file (size : Int) (mtime : Int)
  | other

/-- A message sent to the writer channel (reply channels elided). -/
inductive DbMsgM where
  | insertDir (req : DirReq)
  | insertFiles (rows : List FileRow)
deriving Repr

/-- Path join with the Unix separator. -/
def joinPath (dir name : String) : String := dir ++ "/" ++ name

/-- filepath.Ext: the suffix beginning at the final dot in the final
path element, empty if there is no dot there. -/
def filepathExt (name : String) : String :=
  let fin := name.data.reverse.takeWhile (fun c => c != '/')
  let afterDotRev := fin.takeWhile (fun c => c != '.')
  if afterDotRev.length == fin.length then ""
  else ⟨'.' :: afterDotRev.reverse⟩

/-- topFolder (part_006): the path segment at the given depth of the
slash-separated path (trimmed of outer slashes), else the last segment,
else empty. -/
def topFolder (path : String) (depth : Nat) : String :=
  let parts := (⟨(path.data.dropWhile (fun c => c == '/')).reverse.dropWhile (fun c => c == '/') |>.reverse⟩ : String).splitOn "/"
  if depth < parts.length then parts.getD depth ""
  else parts.getLastD ""

/-- A DFS frame: current directory path, its fs_folders id, remaining
entries (the `ents`/`idx` cursor collapsed to the suffix). -/
structure WalkFrame where
  path : String
  folderId : Int
  ents : List (String × FSNode)

/-- Traversal accumulator: files found, current batch, emitted messages. -/
structure WalkAcc where
  total : Nat
  batch : List FileRow
  msgs : List DbMsgM

/-- The explicit-stack DFS loop of scanRoot. `idOf` is the id the writer
replies for a folder path (the synchronous InsertDir round-trip);
children whose reply is ≤ 0, and excluded directory names, are not
descended into; non-dir non-regular entries are ignored; the batch is
sent when it reaches batchSize. Fuel-driven, mirroring the Go
`for len(stack) > 0` loop. -/
def scanLoop (idOf : String → Int) (exclude : List String) (tag : String) (batchSize : Nat) :
    Nat → List WalkFrame → WalkAcc → WalkAcc
  | 0, _, acc => acc
  | _ + 1, [], acc => acc
  | fuel + 1, fr :: rest, acc =>
    match fr.ents with
    | [] => scanLoop idOf exclude tag batchSize fuel rest acc
    | (name, node) :: more =>
      let fr' : WalkFrame := { fr with ents := more }
      match node with
      | .dir dmt subents =>
        if exclude.contains name then
          scanLoop idOf exclude tag batchSize fuel (fr' :: rest) acc
        else
          let p := joinPath fr.path name
          let acc := { acc with msgs := acc.msgs ++ [.insertDir
            { parentID := fr.folderId, entryPath := p, entryName := name,
              mtime := dmt, loaithumuc := tag }] }
          let childID := idOf p
          if 0 < childID then
            scanLoop idOf exclude tag batchSize fuel
              ({ path := p, folderId := childID, ents := subents } :: fr' :: rest) acc
          else
            scanLoop idOf exclude tag batchSize fuel (fr' :: rest) acc
      | .file sz mt =>
        let p := joinPath fr.path name
        let row : FileRow :=
          { folderID := fr.folderId, path := p, dirPath := fr.path, filename := name,
            fileExt := filepathExt name, size := sz, mtime := mt,
            loaithumuc := tag, thumuc := topFolder p 4 }
        let acc := { acc with total := acc.total + 1, batch := acc.batch ++ [row] }
        if batchSize ≤ acc.batch.length then
          scanLoop idOf exclude tag batchSize fuel (fr' :: rest)
            { acc with batch := [], msgs := acc.msgs ++ [.insertFiles acc.batch] }
        else
          scanLoop idOf exclude tag batchSize fuel (fr' :: rest) acc
      | .other => scanLoop idOf exclude tag batchSize fuel (fr' :: rest) acc

mutual

/-- An over-approximation of the loop iterations a subtree needs. -/
def fsFuel : FSNode → Nat
  | .dir _ ents => 1 + fsFuelList ents
  | .file _ _ => 1
  | .other => 1

/-- Fuel for a list of directory entries. -/
def fsFuelList : List (String × FSNode) → Nat
  | [] => 0
  | e :: rest => 1 + fsFuel e.2 + fsFuelList rest

end

/-- filepath.Base for Unix paths: "." for the empty path, trailing
separators stripped, "/" if only separators remain, else the last
element. -/
def filepathBase (v : String) : String :=
  if v = "" then "."
  else
    let cs := (v.data.reverse.dropWhile (fun c => c == '/')).reverse
    if cs = [] then "/"
    else ⟨((cs.reverse.takeWhile (fun c => c != '/')).reverse)⟩

/-- scanRoot: Lstat the root (`fsRoot` is what the filesystem shows at
the root path, already absolute); when the Lstat fails or the root is
not a directory, return (0, nil) before touching the writer. Otherwise
insert the root folder synchronously (error when the reply is ≤ 0), run
the DFS, and send the final partial batch. The result is (totalFiles,
error, messages sent to the writer). -/
def scanRoot (fsRoot : Option FSNode) (root tag : String) (idOf : String → Int)
    (exclude : List String) (batchSize : Nat) : Nat × Option String × List DbMsgM :=
  match fsRoot with
  | none => (0, none, [])
  | some (.file _ _) => (0, none, [])
  | some .other => (0, none, [])
  | some (.dir rmt ents) =>
    let rootName := filepathBase ⟨(root.data.reverse.dropWhile (fun c => c == '/')).reverse⟩
    let rootMsg : DbMsgM := .insertDir
      { parentID := 0, entryPath := root, entryName := rootName, mtime := rmt, loaithumuc := tag }
    let rootID := idOf root
    if rootID ≤ 0 then (0, some ("failed to insert root folder: " ++ root), [rootMsg])
    else
      let acc := scanLoop idOf exclude tag batchSize
        (1 + fsFuelList ents)
        [{ path := root, folderId := rootID, ents := ents }]
        { total := 0, batch := [], msgs := [rootMsg] }
      if acc.batch.isEmpty then (acc.total, none, acc.msgs)
      else (acc.total, none, acc.msgs ++ [.insertFiles acc.batch])

/-! ## loadConfig [paths] parsing (part_006, common_config.go) -/

/-- The ASCII white space characters trimmed by strings.TrimSpace. -/
def isSpaceB (c : Char) : Bool :=
  c == ' ' || c == '\t' || c == '\n' || c == (Char.ofNat 11) || c == (Char.ofNat 12) || c == '\r'

/-- strings.TrimSpace. -/
def trimSpace (s : String) : String :=
  ⟨((s.data.dropWhile isSpaceB).reverse.dropWhile isSpaceB).reverse⟩

/-- strings.Cut(v, ":"): split around the first colon; none when the
value has no colon. -/
def cutColon : List Char → Option (List Char × List Char)
  | [] => none
  | c :: cs =>
    if c == ':' then some ([], cs)
    else
      match cutColon cs with
      | some (a, b) => some (c :: a, b)
      | none => none

/-- One [paths] value: `p:t` becomes (TrimSpace p, TrimSpace t); a value
with no colon and non-empty becomes (v, filepath.Base v); an empty value
is skipped. -/
def parsePathEntry (v : String) : Option (String × String) :=
  match cutColon v.data with
  | some (p, t) => some (trimSpace ⟨p⟩, trimSpace ⟨t⟩)
  | none => if v != "" then some (v, filepathBase v) else none

/-- The [paths] section loop of loadConfig over the key values. -/
def loadConfigPaths (vals : List String) : List (String × String) :=
  vals.filterMap parsePathEntry

/-! ## Concrete fixtures used by the witness theorems -/

/-- A stored file row that already has a digest and a duplicate mark. -/
def exFileOld : FileRec :=
  { id := 7, folderId := 1, path := "/x/a", dirPath := "/x", filename := "a",
    fileExt := "", size := 3, mtime := 5, hashValue := some "ff", isDuplicate := true,
    loaithumuc := "t", thumuc := "a" }

/-- A rescan of the same path with new folder, size and mtime. -/
def exFileRow : FileRow :=
  { folderID := 2, path := "/x/a", dirPath := "/x", filename := "a", fileExt := "",
    size := 9, mtime := 8, loaithumuc := "t", thumuc := "a" }

/-- An existing duplicate_groups row. -/
def exGroup : GroupRec :=
  { hashValue := "d", fileCount := 2, totalSize := 100, firstSeen := 5, lastUpdated := 1 }

/-- An incoming group row for the same digest with a later first_seen. -/
def exDupRow : DupGroupRow :=
  { hashValue := "d", fileCount := 3, totalSize := 300, firstSeen := 9 }

/-- Two undigested files of equal size (Phase-2 candidates). -/
def exSuspectA : FileRec :=
  { id := 1, folderId := 1, path := "/x/a", dirPath := "/x", filename := "a",
    fileExt := "", size := 5, mtime := 1, hashValue := none, isDuplicate := false,
    loaithumuc := "t", thumuc := "a" }

/-- Second candidate of the same size. -/
def exSuspectB : FileRec :=
  { id := 2, folderId := 1, path := "/x/b", dirPath := "/x", filename := "b",
    fileExt := "", size := 5, mtime := 2, hashValue := none, isDuplicate := false,
    loaithumuc := "t", thumuc := "b" }

/-- An empty file row (size 0, no digest). -/
def exEmptyFile : FileRec :=
  { id := 3, folderId := 1, path := "/x/e", dirPath := "/x", filename := "e",
    fileExt := "", size := 0, mtime := 3, hashValue := none, isDuplicate := false,
    loaithumuc := "t", thumuc := "e" }

/-! # Theorems -/

/-- strings.Cut finds no colon in a colon-free value. -/
theorem cutColon_eq_none (cs : List Char) (h : ':' ∉ cs) : cutColon cs = none := by
  induction cs with
  | nil => rfl
  | cons c cs ih =>
    have hcne : c ≠ ':' := fun hcc => h (by simp [hcc])
    have hcs : ':' ∉ cs := fun hm => h (List.mem_cons_of_mem _ hm)
    simp [cutColon, hcne, ih hcs]

/-- strings.Cut splits around the first colon. -/
theorem cutColon_append (pre post : List Char) (h : ':' ∉ pre) :
    cutColon (pre ++ ':' :: post) = some (pre, post) := by
  induction pre with
  | nil => simp [cutColon]
  | cons c cs ih =>
    have hc : c ≠ ':' := fun hcc => h (by simp [hcc])
    have hcs : ':' ∉ cs := fun hm => h (List.mem_cons_of_mem _ hm)
    simp [cutColon, hc, ih hcs]

/-- C10: a [paths] value containing a colon is split at the FIRST colon
into (root_path, tag) (both trimmed); hence `C:\data` yields root "C"
and tag "\data"; and the final-path-segment default tag applies exactly
to values with no colon at all. -/
theorem loadConfig_paths_cut_first_colon :
    (∀ pre post : List Char, ':' ∉ pre →
        parsePathEntry ⟨pre ++ ':' :: post⟩ =
          some (trimSpace ⟨pre⟩, trimSpace ⟨post⟩)) ∧
    parsePathEntry "C:\\data" = some ("C", "\\data") ∧
    (∀ v : String, v ≠ "" → ':' ∉ v.data →
        parsePathEntry v = some (v, filepathBase v)) := by
  refine ⟨fun pre post h => ?_, by decide, fun v hv h => ?_⟩
  · simp [parsePathEntry, cutColon_append pre post h]
  · have hv' : (v != "") = true := by simpa using hv
    simp [parsePathEntry, cutColon_eq_none v.data h, hv']

/-- Witness for the C10 theorem at the concrete value `/srv/media:Media`. -/
theorem loadConfig_paths_cut_first_colon_witness :
    (':' ∉ ['/', 's', 'r', 'v']) ∧
      parsePathEntry ⟨['/', 's', 'r', 'v'] ++ ':' :: ['M']⟩ =
        some (trimSpace ⟨['/', 's', 'r', 'v']⟩, trimSpace ⟨['M']⟩) :=
  ⟨by decide, loadConfig_paths_cut_first_colon.1 ['/', 's', 'r', 'v'] ['M'] (by decide)⟩

/-- C3: the fs_files upsert on a path conflict updates only folder_id,
size and st_mtime of the existing row; id, filename, fileExt, dir_path,
loaithumuc, thumuc, hash_value and is_duplicate are preserved, rows with
other paths are untouched, and no row is added. -/
theorem flushFiles_conflict_updates_only_folder_size_mtime
    (files : List FileRec) (r : FileRow) (nid : Int) (old : FileRec)
    (hnd : (files.map (fun f => f.path)).Nodup)
    (hmem : old ∈ files) (hpath : old.path = r.path) :
    (∀ f ∈ flushFilesUpsertOne files r nid, f.path = r.path →
        f.folderId = r.folderID ∧ f.size = r.size ∧ f.mtime = r.mtime ∧
        f.id = old.id ∧ f.filename = old.filename ∧ f.fileExt = old.fileExt ∧
        f.dirPath = old.dirPath ∧ f.loaithumuc = old.loaithumuc ∧ f.thumuc = old.thumuc ∧
        f.hashValue = old.hashValue ∧ f.isDuplicate = old.isDuplicate) ∧
    (∀ f ∈ flushFilesUpsertOne files r nid, f.path ≠ r.path → f ∈ files) ∧
    (flushFilesUpsertOne files r nid).length = files.length := by
  have hany : files.any (fun f => f.path == r.path) = true := by
    simp only [List.any_eq_true]
    exact ⟨old, hmem, by simp [hpath]⟩
  have hres : flushFilesUpsertOne files r nid =
      files.map (fun f =>
        if f.path == r.path then
          { f with folderId := r.folderID, size := r.size, mtime := r.mtime }
        else f) := by
    simp [flushFilesUpsertOne, hany]
  refine ⟨?_, ?_, ?_⟩
  · intro f hf hfp
    rw [hres] at hf
    obtain ⟨x, hx, hfx⟩ := List.mem_map.mp hf
    by_cases hxp : x.path = r.path
    · have hxold : x = old :=
        List.inj_on_of_nodup_map hnd hx hmem (by rw [hxp, hpath])
      subst hxold
      simp only [hxp, beq_self_eq_true, if_true] at hfx
      subst hfx
      simp
    · have : (x.path == r.path) = false := by simpa using hxp
      rw [this] at hfx
      simp only [Bool.false_eq_true, if_false] at hfx
      subst hfx
      exact absurd hfp hxp
  · intro f hf hfp
    rw [hres] at hf
    obtain ⟨x, hx, hfx⟩ := List.mem_map.mp hf
    by_cases hxp : x.path = r.path
    · have : (x.path == r.path) = true := by simpa using hxp
      rw [this] at hfx
      simp only [if_true] at hfx
      exact absurd (by rw [← hfx]; exact hxp) hfp
    · have : (x.path == r.path) = false := by simpa using hxp
      rw [this] at hfx
      simp only [Bool.false_eq_true, if_false] at hfx
      exact hfx ▸ hx
  · rw [hres, List.length_map]

/-- Witness for the C3 theorem: a second scan of the same path keeps the
digest and duplicate mark of the existing row. -/
theorem flushFiles_conflict_witness :
    (([exFileOld].map (fun f => f.path)).Nodup ∧ exFileOld ∈ [exFileOld] ∧
      exFileOld.path = exFileRow.path) ∧
    (∀ f ∈ flushFilesUpsertOne [exFileOld] exFileRow 99, f.path = exFileRow.path →
        f.folderId = exFileRow.folderID ∧ f.size = exFileRow.size ∧ f.mtime = exFileRow.mtime ∧
        f.id = exFileOld.id ∧ f.filename = exFileOld.filename ∧ f.fileExt = exFileOld.fileExt ∧
        f.dirPath = exFileOld.dirPath ∧ f.loaithumuc = exFileOld.loaithumuc ∧
        f.thumuc = exFileOld.thumuc ∧ f.hashValue = exFileOld.hashValue ∧
        f.isDuplicate = exFileOld.isDuplicate) :=
  ⟨⟨by decide, by decide, by decide⟩,
   (flushFiles_conflict_updates_only_folder_size_mtime [exFileOld] exFileRow 99 exFileOld
      (by decide) (by decide) (by decide)).1⟩

/-- C2 counterexample: upserting a batch row whose digest already exists
replaces the stored first_seen (5) with the incoming value (9), so the
existing first_seen is NOT left unchanged. -/
theorem commitDupBatch_overwrites_first_seen_cex :
    (commitDupBatch
        { files := [],
          dupGroups := [{ hashValue := "d", fileCount := 2, totalSize := 100,
                          firstSeen := 5, lastUpdated := 1 }] }
        [{ hashValue := "d", fileCount := 3, totalSize := 300, firstSeen := 9 }]
        10).dupGroups =
      [{ hashValue := "d", fileCount := 3, totalSize := 300, firstSeen := 9,
         lastUpdated := 10 }] ∧
    (9 : Int) ≠ 5 := by
  exact ⟨by decide, by decide⟩

/-- C2 (amended): on a digest conflict the duplicate_groups upsert
overwrites file_count, total_size, last_updated AND first_seen from the
incoming row; rows with other digests are untouched and none is added. -/
theorem commitDupBatch_upsert_on_conflict
    (groups : List GroupRec) (g : DupGroupRow) (now : Int) (x : GroupRec)
    (hmem : x ∈ groups) (hhash : x.hashValue = g.hashValue) :
    (∀ y ∈ upsertDupGroup groups g now, y.hashValue = g.hashValue →
        y.fileCount = g.fileCount ∧ y.totalSize = g.totalSize ∧
        y.firstSeen = g.firstSeen ∧ y.lastUpdated = now) ∧
    (∀ y ∈ upsertDupGroup groups g now, y.hashValue ≠ g.hashValue → y ∈ groups) ∧
    (upsertDupGroup groups g now).length = groups.length := by
  have hany : groups.any (fun y => y.hashValue == g.hashValue) = true := by
    simp only [List.any_eq_true]
    exact ⟨x, hmem, by simp [hhash]⟩
  have hres : upsertDupGroup groups g now =
      groups.map (fun y =>
        if y.hashValue == g.hashValue then
          { y with fileCount := g.fileCount, totalSize := g.totalSize,
                   firstSeen := g.firstSeen, lastUpdated := now }
        else y) := by
    simp [upsertDupGroup, hany]
  refine ⟨?_, ?_, ?_⟩
  · intro y hy hyh
    rw [hres] at hy
    obtain ⟨z, hz, hyz⟩ := List.mem_map.mp hy
    by_cases hzh : z.hashValue = g.hashValue
    · have : (z.hashValue == g.hashValue) = true := by simpa using hzh
      rw [this] at hyz
      simp only [if_true] at hyz
      subst hyz
      simp
    · have : (z.hashValue == g.hashValue) = false := by simpa using hzh
      rw [this] at hyz
      simp only [Bool.false_eq_true, if_false] at hyz
      subst hyz
      exact absurd hyh hzh
  · intro y hy hyh
    rw [hres] at hy
    obtain ⟨z, hz, hyz⟩ := List.mem_map.mp hy
    by_cases hzh : z.hashValue = g.hashValue
    · have : (z.hashValue == g.hashValue) = true := by simpa using hzh
      rw [this] at hyz
      simp only [if_true] at hyz
      exact absurd (by rw [← hyz]; exact hzh) hyh
    · have : (z.hashValue == g.hashValue) = false := by simpa using hzh
      rw [this] at hyz
      simp only [Bool.false_eq_true, if_false] at hyz
      exact hyz ▸ hz
  · rw [hres, List.length_map]

/-- Witness for the amended C2 theorem at a concrete conflicting upsert. -/
theorem commitDupBatch_upsert_on_conflict_witness :
    (exGroup ∈ [exGroup] ∧ exGroup.hashValue = exDupRow.hashValue) ∧
    (∀ y ∈ upsertDupGroup [exGroup] exDupRow 10, y.hashValue = exDupRow.hashValue →
        y.fileCount = exDupRow.fileCount ∧ y.totalSize = exDupRow.totalSize ∧
        y.firstSeen = exDupRow.firstSeen ∧ y.lastUpdated = 10) :=
  ⟨⟨by decide, by decide⟩,
   (commitDupBatch_upsert_on_conflict [exGroup] exDupRow 10 exGroup
      (by decide) (by decide)).1⟩

/-- C4: the writer's folder reply is NOT always the id of the row whose
path matches the request. After inserting /a (id 1) and /b (id 2), a
second request for /a takes the DO UPDATE branch, last_insert_rowid()
still reports 2 from the /b insert, the `id == 0` fallback does not
fire, and the traverser is told 2 although the /a row keeps id 1. -/
theorem dbWriter_folder_reply_stale_on_conflict :
    (processDirRequests ConnSt.init
      [{ parentID := 0, entryPath := "/a", entryName := "a", mtime := 1, loaithumuc := "t" },
       { parentID := 0, entryPath := "/b", entryName := "b", mtime := 1, loaithumuc := "t" },
       { parentID := 1, entryPath := "/a", entryName := "a", mtime := 2, loaithumuc := "t" }]).2 =
      [1, 2, 2] ∧
    ((processDirRequests ConnSt.init
      [{ parentID := 0, entryPath := "/a", entryName := "a", mtime := 1, loaithumuc := "t" },
       { parentID := 0, entryPath := "/b", entryName := "b", mtime := 1, loaithumuc := "t" },
       { parentID := 1, entryPath := "/a", entryName := "a", mtime := 2, loaithumuc := "t" }]).1.folders.find?
        (fun f => f.path == "/a")).map (fun f => f.id) = some 1 := by
  exact ⟨by decide, by decide⟩

/-- C8: a configured root whose path cannot be Lstat'ed or is not a
directory makes scanRoot return (0 files, nil error) without sending any
folder or file insertion to the writer. -/
theorem scanRoot_skips_missing_or_nondir
    (fsRoot : Option FSNode) (root tag : String) (idOf : String → Int)
    (exclude : List String) (batchSize : Nat)
    (h : ∀ mt ents, fsRoot ≠ some (.dir mt ents)) :
    scanRoot fsRoot root tag idOf exclude batchSize = (0, none, []) := by
  match fsRoot with
  | none => rfl
  | some (.file _ _) => rfl
  | some .other => rfl
  | some (.dir mt ents) => exact absurd rfl (h mt ents)

/-- The WHERE clause, as a proposition. -/
theorem isSuspectRow_iff (f : FileRec) :
    isSuspectRow f = true ↔ 0 < f.size ∧ f.hashValue = none := by
  simp [isSuspectRow, Option.isNone_iff_eq_none]

/-- Membership in one size group of the candidate query. -/
theorem mem_sameSizeSuspects {files : List FileRec} {s : Int} {f : FileRec} :
    f ∈ sameSizeSuspects files s ↔
      f ∈ files ∧ (0 < f.size ∧ f.hashValue = none) ∧ f.size = s := by
  simp [sameSizeSuspects, List.mem_filter, isSuspectRow_iff, and_assoc]

/-- Membership in the GROUP BY ... HAVING count > 1 result. -/
theorem mem_suspectSizes {files : List FileRec} {s : Int} :
    s ∈ suspectSizes files ↔
      (∃ f ∈ files, isSuspectRow f = true ∧ f.size = s) ∧
        1 < (sameSizeSuspects files s).length := by
  simp [suspectSizes, List.mem_filter, List.mem_dedup, List.mem_map, and_assoc]

/-- A nodup list of length > 1 containing f has a member other than f. -/
theorem exists_mem_ne_of_nodup_of_one_lt {α : Type} {l : List α} (hnd : l.Nodup) {f : α}
    (hf : f ∈ l) (hlen : 1 < l.length) : ∃ g ∈ l, g ≠ f := by
  match l, hnd, hf, hlen with
  | [a], _, _, hlen => simp at hlen
  | a :: b :: t, hnd, hf, _ =>
    by_cases ha : a = f
    · subst ha
      have hna : a ∉ b :: t := (List.nodup_cons.mp hnd).1
      exact ⟨b, by simp, fun hba => hna (hba ▸ List.mem_cons_self b t)⟩
    · exact ⟨a, by simp, ha⟩

/-- Two distinct members force length > 1. -/
theorem one_lt_length_of_mem_ne {α : Type} {l : List α} {f g : α}
    (hf : f ∈ l) (hg : g ∈ l) (hne : g ≠ f) : 1 < l.length := by
  match l with
  | [] => cases hf
  | [a] =>
    simp only [List.mem_singleton] at hf hg
    exact absurd (hg.trans hf.symm) hne
  | a :: b :: t => simp only [List.length_cons]; omega

/-- C1: the Phase-2 queries submit a file for hashing iff it has
size > 0, no digest, and shares its size with at least one other file
that also has size > 0 and no digest. -/
theorem runHashingPhase_candidates_iff (files : List FileRec) (f : FileRec)
    (hnd : (files.map (fun x => x.id)).Nodup) :
    f ∈ runHashingPhaseCandidates files ↔
      f ∈ files ∧ 0 < f.size ∧ f.hashValue = none ∧
        ∃ g ∈ files, g.id ≠ f.id ∧ 0 < g.size ∧ g.hashValue = none ∧ g.size = f.size := by
  have hndf : files.Nodup := List.Nodup.of_map _ hnd
  constructor
  · intro hmem
    obtain ⟨s, hsizes, hf⟩ := List.mem_flatMap.mp hmem
    obtain ⟨hff, ⟨hsz, hh⟩, hfs⟩ := mem_sameSizeSuspects.mp hf
    have hlen := (mem_suspectSizes.mp hsizes).2
    have hgrpnd : (sameSizeSuspects files s).Nodup := hndf.filter _
    obtain ⟨g, hg, hgne⟩ := exists_mem_ne_of_nodup_of_one_lt hgrpnd hf hlen
    obtain ⟨hgf, ⟨hgsz, hgh⟩, hgs⟩ := mem_sameSizeSuspects.mp hg
    refine ⟨hff, hsz, hh, g, hgf, ?_, hgsz, hgh, by rw [hgs, hfs]⟩
    intro hid
    exact hgne (List.inj_on_of_nodup_map hnd hgf hff hid)
  · rintro ⟨hf, hsz, hh, g, hg, hgid, hgsz, hgh, hgsize⟩
    have hfs : f ∈ sameSizeSuspects files f.size :=
      mem_sameSizeSuspects.mpr ⟨hf, ⟨hsz, hh⟩, rfl⟩
    have hgs : g ∈ sameSizeSuspects files f.size :=
      mem_sameSizeSuspects.mpr ⟨hg, ⟨hgsz, hgh⟩, hgsize⟩
    have hgnef : g ≠ f := fun h => hgid (by rw [h])
    have hlen := one_lt_length_of_mem_ne hfs hgs hgnef
    have hsizes : f.size ∈ suspectSizes files :=
      mem_suspectSizes.mpr ⟨⟨f, hf, (isSuspectRow_iff f).mpr ⟨hsz, hh⟩, rfl⟩, hlen⟩
    exact List.mem_flatMap.mpr ⟨f.size, hsizes, hfs⟩

/-- Witness for the C1 theorem: two same-sized undigested files. -/
theorem runHashingPhase_candidates_witness :
    (([exSuspectA, exSuspectB].map (fun x => x.id)).Nodup) ∧
    (exSuspectA ∈ runHashingPhaseCandidates [exSuspectA, exSuspectB] ↔
      exSuspectA ∈ [exSuspectA, exSuspectB] ∧ 0 < exSuspectA.size ∧
        exSuspectA.hashValue = none ∧
        ∃ g ∈ [exSuspectA, exSuspectB], g.id ≠ exSuspectA.id ∧ 0 < g.size ∧
          g.hashValue = none ∧ g.size = exSuspectA.size) :=
  ⟨by decide, runHashingPhase_candidates_iff [exSuspectA, exSuspectB] exSuspectA (by decide)⟩

/-- The result-application fold acts row-wise. -/
theorem applyHashResults_eq_map (files : List FileRec) (results : List (Int × Option String)) :
    applyHashResults files results =
      files.map (fun f => results.foldl (fun fr r => rowUpdate r fr) f) := by
  induction results generalizing files with
  | nil => simp [applyHashResults]
  | cons r rest ih =>
    calc applyHashResults files (r :: rest)
        = applyHashResults (files.map (rowUpdate r)) rest := rfl
      _ = (files.map (rowUpdate r)).map
            (fun f => rest.foldl (fun fr r2 => rowUpdate r2 fr) f) := ih _
      _ = files.map (fun f => (r :: rest).foldl (fun fr r2 => rowUpdate r2 fr) f) := by
            rw [List.map_map]; rfl

/-- A row none of the results address is left unchanged. -/
theorem foldl_rowUpdate_of_not_mem (f : FileRec) (results : List (Int × Option String))
    (h : ∀ r ∈ results, r.1 ≠ f.id) :
    results.foldl (fun fr r => rowUpdate r fr) f = f := by
  induction results with
  | nil => rfl
  | cons r rest ih =>
    have hr : rowUpdate r f = f := by
      unfold rowUpdate
      match r, h r (by simp) with
      | (i, none), _ => rfl
      | (i, some h'), hne =>
        have : (f.id == i) = false := by
          simpa using fun he => hne (by simp at he ⊢; omega)
        simp [this]
    rw [List.foldl_cons, hr]
    exact ih (fun r2 h2 => h r2 (List.mem_cons_of_mem _ h2))

/-- Every submitted job is a stored row with size > 0. -/
theorem candidates_mem_and_pos (files : List FileRec) :
    ∀ j ∈ runHashingPhaseCandidates files, j ∈ files ∧ 0 < j.size := by
  intro j hj
  obtain ⟨s, _, hjs⟩ := List.mem_flatMap.mp hj
  have h := mem_sameSizeSuspects.mp hjs
  exact ⟨h.1, h.2.1.1⟩

/-- C6: rows with size = 0 never receive a digest in Phase 2 (they are
not candidates, so no UPDATE addresses their id), and the hash worker
returns a NULL digest for a file whose on-disk size is 0. -/
theorem phase2_never_digests_empty (disk : Disk) (files : List FileRec)
    (hnd : (files.map (fun x => x.id)).Nodup) :
    List.Forall₂ (fun f f' => f.size = 0 → f'.hashValue = f.hashValue) files
      (runHashingPhaseModel disk files) ∧
    (∀ path content, disk path = some content → content.length = 0 →
        calculateHash disk path = Except.ok none) := by
  constructor
  · rw [runHashingPhaseModel, applyHashResults_eq_map]
    rw [List.forall₂_map_right_iff]
    rw [List.forall₂_same]
    intro f hf hsz
    have hfix : (phase2Results disk files).foldl (fun fr r => rowUpdate r fr) f = f := by
      apply foldl_rowUpdate_of_not_mem
      intro r hr he
      obtain ⟨j, hj, hrj⟩ := List.mem_map.mp hr
      have hjprops := candidates_mem_and_pos files j hj
      have hr1 : r.1 = j.id := by
        rw [← hrj]
        rcases calculateHash disk j.path with _ | v
        · rfl
        · rcases v with _ | h'
          · rfl
          · rfl
      have hjf : j = f := List.inj_on_of_nodup_map hnd hjprops.1 hf (by rw [← hr1, he])
      rw [hjf] at hjprops
      omega
    rw [hfix]
  · intro path content hd hlen
    unfold calculateHash
    rw [hd]
    simp [hlen]

/-- Witness for the C6 theorem: a store with an empty file and a
candidate, over a disk of empty files. -/
theorem phase2_never_digests_empty_witness :
    (([exEmptyFile, exSuspectA].map (fun x => x.id)).Nodup) ∧
    (List.Forall₂ (fun f f' => f.size = 0 → f'.hashValue = f.hashValue)
        [exEmptyFile, exSuspectA]
        (runHashingPhaseModel (fun _ => some []) [exEmptyFile, exSuspectA]) ∧
     (∀ path content, ((fun _ => some []) : Disk) path = some content → content.length = 0 →
        calculateHash (fun _ => some []) path = Except.ok none)) :=
  ⟨by decide,
   phase2_never_digests_empty (fun _ => some []) [exEmptyFile, exSuspectA] (by decide)⟩

/-- An MD5 digest always has 16 bytes. -/
theorem md5Sum_length (msg : List Nat) : (md5Sum msg).length = 16 := by
  simp [md5Sum, le4]

/-- Hex encoding yields two characters per byte. -/
theorem hexEncode_length (bytes : List Nat) : (hexEncode bytes).length = 2 * bytes.length := by
  show (bytes.flatMap fun b => [hexDigit (b / 16 % 16), hexDigit (b % 16)]).length = _
  induction bytes with
  | nil => rfl
  | cons b bs ih =>
    simp only [List.flatMap_cons, List.length_append, List.length_cons, List.length_nil, ih,
      List.length_cons]
    omega

/-- Every character of a hex encoding is some hexDigit k with k < 16. -/
theorem mem_hexEncode (bytes : List Nat) (c : Char) (hc : c ∈ (hexEncode bytes).data) :
    ∃ k, k < 16 ∧ c = hexDigit k := by
  have hc' : c ∈ bytes.flatMap fun b => [hexDigit (b / 16 % 16), hexDigit (b % 16)] := hc
  obtain ⟨b, _, hcb⟩ := List.mem_flatMap.mp hc'
  simp only [List.mem_cons, List.not_mem_nil, or_false] at hcb
  rcases hcb with h | h
  · exact ⟨b / 16 % 16, Nat.mod_lt _ (by norm_num), h⟩
  · exact ⟨b % 16, Nat.mod_lt _ (by norm_num), h⟩

/-- Go's hex digit table yields only 0-9 and lowercase a-f. -/
theorem hexDigit_lower_hex (k : Nat) (hk : k < 16) :
    (hexDigit k).isDigit = true ∨ ('a' ≤ hexDigit k ∧ hexDigit k ≤ 'f') := by
  interval_cases k <;> decide

/-- C9: for a file that opens with non-zero contents, calculateHash
returns a digest of exactly 32 characters, each a decimal digit or a
lowercase a-f (hence in particular non-empty). -/
theorem calculateHash_digest_format (disk : Disk) (path : String) (content : List Nat)
    (hdisk : disk path = some content) (hne : content ≠ []) :
    ∃ s, calculateHash disk path = Except.ok (some s) ∧ s.length = 32 ∧
      ∀ c ∈ s.data, c.isDigit = true ∨ ('a' ≤ c ∧ c ≤ 'f') := by
  refine ⟨md5Hex content, ?_, ?_, ?_⟩
  · unfold calculateHash
    rw [hdisk]
    have hz : (content.length == 0) = false := by
      simpa using fun h => hne (List.length_eq_zero.mp h)
    simp [hz, md5Hex]
  · show (hexEncode (md5Sum content)).length = 32
    rw [hexEncode_length, md5Sum_length]
  · intro c hc
    obtain ⟨k, hk, hck⟩ := mem_hexEncode _ c hc
    rw [hck]
    exact hexDigit_lower_hex k hk

/-- Witness for the C9 theorem on a one-byte file. -/
theorem calculateHash_digest_format_witness :
    (((fun _ => some [7]) : Disk) "/x/a" = some [7] ∧ ([7] : List Nat) ≠ []) ∧
    (∃ s, calculateHash (fun _ => some [7]) "/x/a" = Except.ok (some s) ∧ s.length = 32 ∧
      ∀ c ∈ s.data, c.isDigit = true ∨ ('a' ≤ c ∧ c ≤ 'f')) :=
  ⟨⟨rfl, by decide⟩,
   calculateHash_digest_format (fun _ => some [7]) "/x/a" [7] rfl (by decide)⟩

/-- C7: RetryableOperation.Execute makes the initial attempt plus at
most 3 retries (at most 4 calls); the sleeps between attempts are
exactly min(100 ms * 2^n, 5000 ms) for n = 0, 1, ...; it reports failure
iff all 4 attempts fail. And the writer loop: when a flush's retries are
exhausted, the batch is dropped (the store is unchanged, the buffer is
cleared) and later messages are still processed and committed. -/
theorem writer_retry_and_drop :
    (∀ fails : Nat → Bool,
        (retryExecute fails).2.1 ≤ 4 ∧
        (retryExecute fails).2.2 =
          (List.range ((retryExecute fails).2.1 - 1)).map (retryDelay 100 5000) ∧
        ((retryExecute fails).1 = false ↔
          fails 0 = true ∧ fails 1 = true ∧ fails 2 = true ∧ fails 3 = true)) ∧
    (∀ (flushOk : Nat → Bool) (rows1 rows2 : List FileRow) (maxBatch : Nat)
        (db0 : List FileRec) (nid0 : Int),
        flushOk 0 = false → flushOk 1 = true →
        rows1 ≠ [] → maxBatch ≤ rows1.length → rows2 ≠ [] → rows2.length < maxBatch →
        (runWriter flushOk maxBatch [.insertFiles rows1, .insertFiles rows2, .shutdown]
            { dbFiles := db0, fileBatch := [], nextId := nid0, flushes := 0 }).dbFiles =
          (upsertFileBatch db0 rows2 nid0).1 ∧
        (runWriter flushOk maxBatch [.insertFiles rows1, .insertFiles rows2, .shutdown]
            { dbFiles := db0, fileBatch := [], nextId := nid0, flushes := 0 }).flushes = 2) := by
  constructor
  · intro fails
    rcases h0 : fails 0 <;> rcases h1 : fails 1 <;> rcases h2 : fails 2 <;> rcases h3 : fails 3 <;>
      simp [retryExecute, executeLoop, retryDelay, h0, h1, h2, h3, List.range_succ]
  · intro flushOk rows1 rows2 maxBatch db0 nid0 h0 h1 hne1 hlen1 hne2 hlen2
    have hE1 : rows1.isEmpty = false := by simpa [List.isEmpty_iff] using hne1
    have hE2 : rows2.isEmpty = false := by simpa [List.isEmpty_iff] using hne2
    have hnle2 : ¬ maxBatch ≤ rows2.length := by omega
    constructor <;>
      simp [runWriter, writerInsertFiles, flushBatch, hE1, hE2, h0, h1, hlen1, hnle2]

/-- Witness for the C7 theorem: the first flush fails its whole retry
budget and is dropped, the second flush commits. -/
theorem writer_retry_and_drop_witness :
    ((fun n => n == 1) 0 = false ∧ (fun n => n == 1) 1 = true ∧
      ([exFileRow, exFileRow] : List FileRow) ≠ [] ∧
      2 ≤ ([exFileRow, exFileRow] : List FileRow).length ∧
      ([exFileRow] : List FileRow) ≠ [] ∧ ([exFileRow] : List FileRow).length < 2) ∧
    ((runWriter (fun n => n == 1) 2 [.insertFiles [exFileRow, exFileRow],
          .insertFiles [exFileRow], .shutdown]
        { dbFiles := [], fileBatch := [], nextId := 1, flushes := 0 }).dbFiles =
      (upsertFileBatch [] [exFileRow] 1).1 ∧
     (runWriter (fun n => n == 1) 2 [.insertFiles [exFileRow, exFileRow],
          .insertFiles [exFileRow], .shutdown]
        { dbFiles := [], fileBatch := [], nextId := 1, flushes := 0 }).flushes = 2) :=
  ⟨⟨by decide, by decide, by decide, by decide, by decide, by decide⟩,
   writer_retry_and_drop.2 (fun n => n == 1) [exFileRow, exFileRow] [exFileRow] 2 [] 1
     (by decide) (by decide) (by decide) (by decide) (by decide) (by decide)⟩

/-- Witness for the C8 theorem: a root path that does not exist. -/
theorem scanRoot_skips_missing_or_nondir_witness :
    (∀ mt ents, (none : Option FSNode) ≠ some (.dir mt ents)) ∧
    scanRoot none "/does/not/exist" "tag" (fun _ => 1) [] 5000 = (0, none, []) :=
  ⟨fun _ _ => by simp,
   scanRoot_skips_missing_or_nondir none "/does/not/exist" "tag" (fun _ => 1) [] 5000
     (fun _ _ => by simp)⟩

/-- The eligible (hash, size, mtime) projection ignores any per-row
transformation that keeps hash_value, size and st_mtime. -/
theorem eligibleHashRows_map (files : List FileRec) (g : FileRec → FileRec) (fh : String)
    (hh : ∀ f, (g f).hashValue = f.hashValue) (hs : ∀ f, (g f).size = f.size)
    (hm : ∀ f, (g f).mtime = f.mtime) :
    eligibleHashRows (files.map g) fh = eligibleHashRows files fh := by
  unfold eligibleHashRows
  rw [List.filterMap_map]
  congr 1
  funext f
  show (match (g f).hashValue with
    | some h => if (h != "" && strLtB fh.data h.data) = true
        then some (h, (g f).size, (g f).mtime) else none
    | none => none) = _
  rw [hh f, hs f, hm f]

/-- Marking duplicates does not change the group query's inputs. -/
theorem markDuplicates_preserves (files : List FileRec) (hashes : List String) (fh : String) :
    eligibleHashRows (markDuplicates files hashes) fh = eligibleHashRows files fh := by
  unfold markDuplicates
  apply eligibleHashRows_map <;> intro f <;> cases hf : f.hashValue with
  | none => simp [hf]
  | some h => simp only [hf]; split <;> simp [hf]

/-- Resetting is_duplicate does not change the group query's inputs. -/
theorem resetDuplicates_preserves (s : Store) (fh : String) :
    eligibleHashRows (resetDuplicates s).files fh = eligibleHashRows s.files fh := by
  show eligibleHashRows (s.files.map _) fh = _
  apply eligibleHashRows_map <;> intro f <;> by_cases hd : f.isDuplicate <;> simp [hd]

/-- Committing batches only marks files, so the query's inputs survive
the whole fold. -/
theorem foldCommit_preserves (chunks : List (List DupGroupRow)) (st : Store) (now : Int)
    (fh : String) :
    eligibleHashRows ((chunks.foldl (fun s b => commitDupBatch s b now) st).files) fh =
      eligibleHashRows st.files fh := by
  induction chunks generalizing st with
  | nil => rfl
  | cons b bs ih =>
    rw [List.foldl_cons, ih]
    exact markDuplicates_preserves st.files (b.map (fun g => g.hashValue)) fh

/-- The duplicate_groups component of the batch fold is the row-by-row
upsert fold over the concatenated batches. -/
theorem dupGroups_foldl_commit (chunks : List (List DupGroupRow)) (st : Store) (now : Int) :
    (chunks.foldl (fun s b => commitDupBatch s b now) st).dupGroups =
      chunks.flatten.foldl (fun gs g => upsertDupGroup gs g now) st.dupGroups := by
  induction chunks generalizing st with
  | nil => rfl
  | cons b bs ih =>
    rw [List.foldl_cons, ih, List.flatten_cons, List.foldl_append]
    rfl

/-- Batching is content-preserving. -/
theorem chunked_flatten_aux {α : Type} (n : Nat) :
    ∀ (k : Nat) (l : List α), l.length ≤ k → (chunked n l).flatten = l := by
  intro k
  induction k with
  | zero =>
    intro l hl
    have : l = [] := List.length_eq_zero.mp (Nat.le_zero.mp hl)
    subst this
    simp [chunked]
  | succ k ih =>
    intro l hl
    match l with
    | [] => simp [chunked]
    | a :: t =>
      rw [chunked]
      by_cases hn : n = 0
      · simp [hn]
      · rw [if_neg hn]
        rw [List.flatten_cons]
        rw [ih ((a :: t).drop n)
            (by simp only [List.length_drop, List.length_cons] at hl ⊢; omega),
          List.take_append_drop]

/-- Rebuilding the batches yields the query's row list. -/
theorem chunked_flatten {α : Type} (n : Nat) (l : List α) : (chunked n l).flatten = l :=
  chunked_flatten_aux n l.length l le_rfl

/-- Folding the upsert over rows with fresh, pairwise-distinct digests
appends them in order. -/
theorem foldl_upsert_fresh (now : Int) :
    ∀ (gs : List DupGroupRow) (acc : List GroupRec),
      (∀ g ∈ gs, ∀ x ∈ acc, x.hashValue ≠ g.hashValue) →
      (gs.map (fun g => g.hashValue)).Nodup →
      gs.foldl (fun a g => upsertDupGroup a g now) acc = acc ++ gs.map (dupRowToGroup now) := by
  intro gs
  induction gs with
  | nil => intro acc _ _; simp
  | cons g rest ih =>
    intro acc hdisj hnd
    have hany : (acc.any fun x => x.hashValue == g.hashValue) = false := by
      rw [List.any_eq_false]
      intro x hx
      simpa using hdisj g (by simp) x hx
    rw [List.map_cons] at hnd
    have hhead : g.hashValue ∉ rest.map (fun g => g.hashValue) := (List.nodup_cons.mp hnd).1
    have htail := (List.nodup_cons.mp hnd).2
    rw [List.foldl_cons]
    have hstep : upsertDupGroup acc g now = acc ++ [dupRowToGroup now g] := by
      simp [upsertDupGroup, hany, dupRowToGroup]
    rw [hstep]
    have hdisj2 : ∀ g' ∈ rest, ∀ x ∈ acc ++ [dupRowToGroup now g], x.hashValue ≠ g'.hashValue := by
      intro g' hg' x hx
      rcases List.mem_append.mp hx with hx | hx
      · exact hdisj g' (List.mem_cons_of_mem _ hg') x hx
      · simp only [List.mem_cons, List.not_mem_nil, or_false] at hx
        subst hx
        intro hEq
        have hEq' : g.hashValue = g'.hashValue := hEq
        exact hhead (by rw [hEq']; exact List.mem_map_of_mem _ hg')
    rw [ih (acc ++ [dupRowToGroup now g]) hdisj2 htail]
    simp

/-- GROUP BY produces pairwise-distinct digests. -/
theorem dupGroupsQuery_hash_nodup (files : List FileRec) (fh : String) :
    ((dupGroupsQuery files fh).map (fun g => g.hashValue)).Nodup := by
  simp only [dupGroupsQuery]
  apply List.Nodup.map_on
  · intro x hx y hy hxy
    obtain ⟨a, _, hax⟩ := List.mem_map.mp hx
    obtain ⟨b, _, hby⟩ := List.mem_map.mp hy
    subst hax
    subst hby
    have hab : a = b := hxy
    rw [hab]
  · apply List.Nodup.map_on
    · intro a _ b _ hab
      exact congrArg (fun g => g.hashValue) hab
    · apply List.Nodup.filter
      exact (List.mergeSort_perm _ strLeB |>.nodup_iff).mpr (List.nodup_dedup _)

/-- A --reset run leaves duplicate_groups equal to the group query over
the reset store, with last_updated stamped by the run. -/
theorem runCheckDup_reset_dupGroups (s : Store) (fh : String) (bs : Nat) (now : Int) :
    (runCheckDup s true fh bs now).dupGroups =
      (dupGroupsQuery (resetDuplicates s).files fh).map (dupRowToGroup now) := by
  unfold runCheckDup
  simp only [if_true]
  rw [dupGroups_foldl_commit, chunked_flatten]
  rw [foldl_upsert_fresh now _ (resetDuplicates s).dupGroups (by intro g _ x hx; cases hx)
    (dupGroupsQuery_hash_nodup _ fh)]
  rfl

/-- A --reset run changes fs_files only in is_duplicate, so the group
query's inputs are those of the original store. -/
theorem runCheckDup_files_preserves (s : Store) (fh fh2 : String) (bs : Nat) (now : Int) :
    eligibleHashRows (runCheckDup s true fh bs now).files fh2 =
      eligibleHashRows s.files fh2 := by
  unfold runCheckDup
  simp only [if_true]
  rw [foldCommit_preserves]
  exact resetDuplicates_preserves s fh2

/-- C5: running the materializer twice in a row with --reset over the
same store yields identical DuplicateGroup contents: same digests and,
per group, the same file_count, total_size and first_seen. -/
theorem runCheckDup_reset_idempotent (s : Store) (fh : String) (b1 b2 : Nat) (n1 n2 : Int) :
    ((runCheckDup (runCheckDup s true fh b1 n1) true fh b2 n2).dupGroups).map
        (fun g => (g.hashValue, g.fileCount, g.totalSize, g.firstSeen)) =
      ((runCheckDup s true fh b1 n1).dupGroups).map
        (fun g => (g.hashValue, g.fileCount, g.totalSize, g.firstSeen)) := by
  rw [runCheckDup_reset_dupGroups, runCheckDup_reset_dupGroups]
  have h1 : eligibleHashRows (resetDuplicates (runCheckDup s true fh b1 n1)).files fh =
      eligibleHashRows s.files fh := by
    rw [resetDuplicates_preserves, runCheckDup_files_preserves]
  have h2 : eligibleHashRows (resetDuplicates s).files fh =
      eligibleHashRows s.files fh := resetDuplicates_preserves s fh
  have hQ : dupGroupsQuery (resetDuplicates (runCheckDup s true fh b1 n1)).files fh =
      dupGroupsQuery (resetDuplicates s).files fh := by
    unfold dupGroupsQuery
    rw [h1, h2]
  rw [hQ, List.map_map, List.map_map]
  rfl

end ScanDir

